import Mathlib

/-!
Shallow embedding of the risk-scoring engine of the pos_shrinkage_detection
repository (config.py, features.py, detection.py, validation.py).
Floating-point arithmetic of the source is modelled over the rationals;
pandas missing columns are modelled as Option, missing cells (NaN) as an
inner Option, and Python exceptions as Except.
-/

/-- Embeds config.py RISK_WEIGHTS: the five component weights of the
employee composite score. -/
structure RiskWeights where
  refund_anomaly : ℚ
  void_anomaly : ℚ
  override_anomaly : ℚ
  cluster_risk : ℚ
  time_anomaly : ℚ
deriving DecidableEq

/-- config.py lines 38-44: the default weight table
(refund 0.3, void 0.2, override 0.2, cluster 0.2, time 0.1). -/
def RISK_WEIGHTS : RiskWeights :=
  { refund_anomaly := 3/10
    void_anomaly := 2/10
    override_anomaly := 2/10
    cluster_risk := 2/10
    time_anomaly := 1/10 }

/-- Embeds config.py RISK_THRESHOLDS: the employee tier boundaries. -/
structure RiskThresholds where
  moderate : ℚ
  high : ℚ
deriving DecidableEq

/-- config.py lines 45-48: the default thresholds (high 85, moderate 70). -/
def RISK_THRESHOLDS : RiskThresholds := { moderate := 70, high := 85 }

/-- detection.py lines 102-109: the weighted sum of the five normalized
components, scaled to the 0-100 range
(risk_score = raw_score * 100 with raw_score the weighted sum). -/
def risk_score (w : RiskWeights) (ra va oa cr ta : ℚ) : ℚ :=
  (w.refund_anomaly * ra + w.void_anomaly * va + w.override_anomaly * oa +
   w.cluster_risk * cr + w.time_anomaly * ta) * 100

/-- The three discrete risk tiers used by detection.py
(labels of the pd.cut calls). -/
inductive RiskTier where
  | Monitor
  | Moderate
  | High
deriving DecidableEq

/-- Embeds pd.cut(score, bins=[0, moderate, high, 100], labels=[Monitor,
Moderate, High], right=False) as used in detection.py lines 122-125 and
161-164: with right=False the bins are the left-closed right-open intervals
[0, moderate), [moderate, high), [high, 100); a value outside every bin
(in particular a value equal to 100) gets NaN, modelled as none. -/
def pd_cut_tier (moderate high : ℚ) (score : ℚ) : Option RiskTier :=
  if 0 ≤ score ∧ score < moderate then some RiskTier.Monitor
  else if moderate ≤ score ∧ score < high then some RiskTier.Moderate
  else if high ≤ score ∧ score < 100 then some RiskTier.High
  else none

/-- detection.py lines 122-125: the employee risk flag, pd.cut with the
configured threshold table. -/
def risk_flag (t : RiskThresholds) (score : ℚ) : Option RiskTier :=
  pd_cut_tier t.moderate t.high score

/-- C7: for every employee record, the employee risk_score is monotonically
non-decreasing in each individual normalized anomaly component (refund,
void, override, cluster_risk, time_anomaly) when the other four components
are held fixed, with the default weight table. -/
theorem c7_monotone (ra va oa cr ta x y : ℚ) (hxy : x ≤ y) :
    risk_score RISK_WEIGHTS x va oa cr ta ≤ risk_score RISK_WEIGHTS y va oa cr ta ∧
    risk_score RISK_WEIGHTS ra x oa cr ta ≤ risk_score RISK_WEIGHTS ra y oa cr ta ∧
    risk_score RISK_WEIGHTS ra va x cr ta ≤ risk_score RISK_WEIGHTS ra va y cr ta ∧
    risk_score RISK_WEIGHTS ra va oa x ta ≤ risk_score RISK_WEIGHTS ra va oa y ta ∧
    risk_score RISK_WEIGHTS ra va oa cr x ≤ risk_score RISK_WEIGHTS ra va oa cr y := by
  simp only [risk_score, RISK_WEIGHTS]
  refine ⟨?_, ?_, ?_, ?_, ?_⟩ <;> nlinarith [hxy]

/-- Witness for c7_monotone at the concrete components (0,0,0,0,0) against
(1,0,0,0,0) and friends. -/
theorem c7_monotone_witness :
    risk_score RISK_WEIGHTS 0 0 0 0 0 ≤ risk_score RISK_WEIGHTS 1 0 0 0 0 :=
  (c7_monotone 0 0 0 0 0 0 1 (by norm_num)).1

/-- C3 counterexample: a risk score of exactly 100.0 falls outside every
bin of pd.cut(..., right=False) with thresholds moderate=70, high=85, so
it receives no tier (NaN) rather than High; the claim asserted that the
top interval is [85, 100] with an inclusive top end and that every score
in [0, 100] receives a tier. -/
theorem c3_counterexample :
    risk_flag RISK_THRESHOLDS 100 = none ∧
    risk_flag RISK_THRESHOLDS 100 ≠ some RiskTier.High := by
  constructor <;> decide

/-- C3 amended: with thresholds moderate=70 and high=85 the tiers follow
half-open intervals [0,70) → Monitor, [70,85) → Moderate, [85,100) → High
(so exactly 70.0 maps to Moderate, exactly 85.0 maps to High and 69.999
maps to Monitor), but exactly 100.0 falls outside the last bin and gets
no tier (NaN), so not every score in [0,100] receives a tier. -/
theorem c3_amended (s : ℚ) (h0 : 0 ≤ s) (h100 : s ≤ 100) :
    (s < 70 → risk_flag RISK_THRESHOLDS s = some RiskTier.Monitor) ∧
    (70 ≤ s → s < 85 → risk_flag RISK_THRESHOLDS s = some RiskTier.Moderate) ∧
    (85 ≤ s → s < 100 → risk_flag RISK_THRESHOLDS s = some RiskTier.High) ∧
    (s = 100 → risk_flag RISK_THRESHOLDS s = none) := by
  have hm : RISK_THRESHOLDS.moderate = 70 := rfl
  have hh : RISK_THRESHOLDS.high = 85 := rfl
  refine ⟨fun h => ?_, fun h1 h2 => ?_, fun h1 h2 => ?_, fun h => ?_⟩
  · unfold risk_flag pd_cut_tier
    rw [hm, hh]
    split_ifs with hc1 hc2 hc3
    · rfl
    · exact absurd ⟨h0, h⟩ hc1
    · exact absurd ⟨h0, h⟩ hc1
    · exact absurd ⟨h0, h⟩ hc1
  · unfold risk_flag pd_cut_tier
    rw [hm, hh]
    split_ifs with hc1 hc2 hc3
    · exact absurd hc1.2 (not_lt.mpr h1)
    · rfl
    · exact absurd ⟨h1, h2⟩ hc2
    · exact absurd ⟨h1, h2⟩ hc2
  · unfold risk_flag pd_cut_tier
    rw [hm, hh]
    split_ifs with hc1 hc2 hc3
    · exact absurd hc1.2 (not_lt.mpr (by linarith))
    · exact absurd hc2.2 (not_lt.mpr (by linarith))
    · rfl
    · exact absurd ⟨h1, h2⟩ hc3
  · subst h
    decide

/-- Witness for c3_amended: a score of exactly 70 gets tier Moderate. -/
theorem c3_amended_witness :
    risk_flag RISK_THRESHOLDS 70 = some RiskTier.Moderate :=
  (c3_amended 70 (by norm_num) (by norm_num)).2.1 (by norm_num) (by norm_num)

/-- detection.py lines 154-159: the terminal risk score,
(refund_rate * 20 + void_rate * 20 + override_rate * 20 +
 high_risk_employee_ratio * 40) * 100, where the final factor carries the
source comment "scale to 0-100". The last argument is the fraction of
high-risk employees attached to the terminal. -/
def score_terminals_risk (refund_rate void_rate override_rate hre_frac : ℚ) : ℚ :=
  (refund_rate * 20 + void_rate * 20 + override_rate * 20 + hre_frac * 40) * 100

/-- Follows the words of the spec (section 4.5, terminal scoring) for
comparison with score_terminals_risk:
risk_score = 100 * (0.20 refund + 0.20 void + 0.20 override + 0.40 ratio). -/
def spec_terminal_risk (refund_rate void_rate override_rate hre_frac : ℚ) : ℚ :=
  100 * (2/10 * refund_rate + 2/10 * void_rate + 2/10 * override_rate +
         4/10 * hre_frac)

/-- C2: evaluating the terminal scorer at the failing input
refund_rate = void_rate = override_rate = 0.1 and ratio = 0: the code
yields 600, the claimed formula yields 6, and the code result violates the
claimed [0, 100] bound (despite the source comment "scale to 0-100"). -/
theorem c2_terminal_score_bug :
    score_terminals_risk (1/10) (1/10) (1/10) 0 = 600 ∧
    spec_terminal_risk (1/10) (1/10) (1/10) 0 = 6 ∧
    ¬ score_terminals_risk (1/10) (1/10) (1/10) 0 ≤ 100 ∧
    pd_cut_tier 70 85 (score_terminals_risk (1/10) (1/10) (1/10) 0) = none := by
  refine ⟨by norm_num [score_terminals_risk], by norm_num [spec_terminal_risk],
    by norm_num [score_terminals_risk], ?_⟩
  norm_num [score_terminals_risk, pd_cut_tier]

/-- Mean of a list of values, as computed by pandas mean over a store
group (features.py line 32). Empty groups do not occur (every group has
at least the record it came from). -/
def listMean (xs : List ℚ) : ℚ := xs.sum / xs.length

/-- Sample variance with ddof = 1, the square of the pandas std of
features.py line 32. pandas std returns NaN for a single-member group and
store_stats is then passed through fillna(0) (features.py line 34), so a
group of length at most 1 gets std 0, that is variance 0. -/
def sampleVar (xs : List ℚ) : ℚ :=
  if xs.length ≤ 1 then 0
  else (xs.map (fun x => (x - listMean xs) ^ 2)).sum / (xs.length - 1)

/-- Square of the clipped standard deviation of features.py line 38:
the code divides by std.clip(1e-6) = max(std, 1e-6); since std is the
square root of sampleVar and squaring is monotone on nonnegatives,
max(std, 1e-6)^2 = max(sampleVar, 1e-12). Working with the square keeps
the definition inside the rationals (the square root itself is
irrational in general). -/
def clippedStdSq (xs : List ℚ) : ℚ := max (sampleVar xs) (1 / 1000000 ^ 2)

/-- Square of the peer z-score of features.py lines 36-38 for a record
with value v in a store group with values xs:
zscore = (v - mean) / max(std, 1e-6), so
zscore^2 = (v - mean)^2 / max(sampleVar, 1e-12). The z-score itself is
zero exactly when this square is zero, and is finite whenever the
denominator is positive. -/
def zscoreSq (xs : List ℚ) (v : ℚ) : ℚ :=
  (v - listMean xs) ^ 2 / clippedStdSq xs

/-- Helper: a sum of nonnegative rationals is zero only if every summand
is zero. -/
theorem sum_eq_zero_all_zero (l : List ℚ) (hnn : ∀ x ∈ l, 0 ≤ x)
    (hsum : l.sum = 0) : ∀ x ∈ l, x = 0 := by
  induction l with
  | nil => intro x hx; cases hx
  | cons a t ih =>
    have ha : 0 ≤ a := hnn a (List.mem_cons_self a t)
    have ht : 0 ≤ t.sum := by
      apply List.sum_nonneg
      intro x hx; exact hnn x (List.mem_cons_of_mem a hx)
    have hsum' : a + t.sum = 0 := by simpa using hsum
    have ha0 : a = 0 := by linarith
    have ht0 : t.sum = 0 := by linarith
    intro x hx
    rcases List.mem_cons.mp hx with hx | hx
    · exact hx ▸ ha0
    · exact ih (fun y hy => hnn y (List.mem_cons_of_mem a hy)) ht0 x hx

/-- Helper: a member of a group with zero sample variance equals the
group mean. -/
theorem mem_of_sampleVar_zero (xs : List ℚ) (v : ℚ)
    (hvar : sampleVar xs = 0) (hv : v ∈ xs) : v = listMean xs := by
  by_cases hlen : xs.length ≤ 1
  · match xs, hv with
    | [x], hv =>
      have : v = x := by simpa using hv
      subst this
      simp [listMean]
  · have hlen2 : (2 : ℕ) ≤ xs.length := by omega
    have hpos : (0 : ℚ) < (xs.length : ℚ) - 1 := by
      have : (2 : ℚ) ≤ (xs.length : ℚ) := by exact_mod_cast hlen2
      linarith
    have hsum : (xs.map (fun x => (x - listMean xs) ^ 2)).sum = 0 := by
      have := hvar
      unfold sampleVar at this
      rw [if_neg hlen] at this
      have hne : ((xs.length : ℚ) - 1) ≠ 0 := ne_of_gt hpos
      field_simp at this
      exact this
    have hall := sum_eq_zero_all_zero (xs.map (fun x => (x - listMean xs) ^ 2))
      (by intro x hx
          rcases List.mem_map.mp hx with ⟨y, _, rfl⟩
          positivity)
      hsum
    have hmem : (v - listMean xs) ^ 2 ∈ xs.map (fun x => (x - listMean xs) ^ 2) :=
      List.mem_map.mpr ⟨v, hv, rfl⟩
    have := hall _ hmem
    have : v - listMean xs = 0 := by
      exact pow_eq_zero_iff (by norm_num) |>.mp this
    linarith

/-- C6: the peer normalizer never divides by zero: the squared clipped
standard deviation is strictly positive for every group, and for a group
with zero variance (in particular any single-member group, whose pandas
std is NaN and is filled with 0) the z-score of every member is exactly 0
(its square is 0). -/
theorem c6_zscore_guard (xs : List ℚ) (v : ℚ)
    (hvar : sampleVar xs = 0) (hv : v ∈ xs) :
    0 < clippedStdSq xs ∧ zscoreSq xs v = 0 := by
  constructor
  · unfold clippedStdSq
    have : (0 : ℚ) < 1 / 1000000 ^ 2 := by norm_num
    exact lt_max_of_lt_right this
  · unfold zscoreSq
    have hmean := mem_of_sampleVar_zero xs v hvar hv
    have : v - listMean xs = 0 := by linarith
    rw [this]
    simp

/-- Witness for c6_zscore_guard on the two-member zero-variance group
[3, 3]. -/
theorem c6_zscore_guard_witness :
    0 < clippedStdSq [3, 3] ∧ zscoreSq [3, 3] 3 = 0 :=
  c6_zscore_guard [3, 3] 3 (by norm_num [sampleVar, listMean]) (by norm_num)

/-- Minimum of a list of rationals, as pandas Series.min over the
cluster_risk column (detection.py line 37). The column is nonempty
whenever any record exists; the value on [] is an unused default. -/
def listMin : List ℚ → ℚ
  | [] => 0
  | h :: t => t.foldl min h

/-- Maximum of a list of rationals, as pandas Series.max over the
cluster_risk column (detection.py line 38). -/
def listMax : List ℚ → ℚ
  | [] => 0
  | h :: t => t.foldl max h

/-- detection.py lines 36-38: normalization of the per-record cluster_risk
column, r maps to (r - min) / (max - min + 1e-6) where min and max range
over the whole column. -/
def normalize_cluster_risk (risks : List ℚ) : List ℚ :=
  risks.map (fun r => (r - listMin risks) / (listMax risks - listMin risks + 1 / 1000000))

/-- Helper: the running fold of min is at most its accumulator. -/
theorem foldl_min_le_init (t : List ℚ) (a : ℚ) : t.foldl min a ≤ a := by
  induction t generalizing a with
  | nil => simp
  | cons h tl ih =>
    calc (h :: tl).foldl min a = tl.foldl min (min a h) := rfl
    _ ≤ min a h := ih (min a h)
    _ ≤ a := min_le_left a h

/-- Helper: the running fold of min is at most every member. -/
theorem foldl_min_le_mem (t : List ℚ) (a x : ℚ) (hx : x ∈ t) :
    t.foldl min a ≤ x := by
  induction t generalizing a with
  | nil => cases hx
  | cons h tl ih =>
    rcases List.mem_cons.mp hx with rfl | hx
    · calc (x :: tl).foldl min a = tl.foldl min (min a x) := rfl
      _ ≤ min a x := foldl_min_le_init tl (min a x)
      _ ≤ x := min_le_right a x
    · exact ih (min a h) hx

/-- Helper: listMin bounds every member from below. -/
theorem listMin_le_mem (xs : List ℚ) (x : ℚ) (hx : x ∈ xs) : listMin xs ≤ x := by
  match xs, hx with
  | h :: t, hx =>
    rcases List.mem_cons.mp hx with rfl | hx
    · exact foldl_min_le_init t x
    · exact foldl_min_le_mem t h x hx

/-- Helper: the running fold of max is at least its accumulator. -/
theorem le_foldl_max_init (t : List ℚ) (a : ℚ) : a ≤ t.foldl max a := by
  induction t generalizing a with
  | nil => simp
  | cons h tl ih =>
    calc a ≤ max a h := le_max_left a h
    _ ≤ tl.foldl max (max a h) := ih (max a h)
    _ = (h :: tl).foldl max a := rfl

/-- Helper: the running fold of max is at least every member. -/
theorem le_foldl_max_mem (t : List ℚ) (a x : ℚ) (hx : x ∈ t) :
    x ≤ t.foldl max a := by
  induction t generalizing a with
  | nil => cases hx
  | cons h tl ih =>
    rcases List.mem_cons.mp hx with rfl | hx
    · calc x ≤ max a x := le_max_right a x
      _ ≤ tl.foldl max (max a x) := le_foldl_max_init tl (max a x)
      _ = (x :: tl).foldl max a := rfl
    · exact ih (max a h) hx

/-- Helper: listMax bounds every member from above. -/
theorem le_listMax_mem (xs : List ℚ) (x : ℚ) (hx : x ∈ xs) : x ≤ listMax xs := by
  match xs, hx with
  | h :: t, hx =>
    rcases List.mem_cons.mp hx with rfl | hx
    · exact le_foldl_max_init t x
    · exact le_foldl_max_mem t h x hx

/-- C4 counterexample: when every cluster has identical raw risk (here the
uniform column [2, 2, 2]), the normalization of detection.py lines 36-38
assigns every record cluster_risk 0 (the numerator is zero and the
denominator is the epsilon 1e-6), not the claimed 0.5. -/
theorem c4_counterexample :
    normalize_cluster_risk [2, 2, 2] = [0, 0, 0] ∧ (0 : ℚ) ≠ 1 / 2 := by
  constructor
  · norm_num [normalize_cluster_risk, listMin, listMax]
  · norm_num

/-- Helper: the running fold of min is the accumulator or a member. -/
theorem foldl_min_eq_or_mem (t : List ℚ) (a : ℚ) :
    t.foldl min a = a ∨ t.foldl min a ∈ t := by
  induction t generalizing a with
  | nil => left; rfl
  | cons x tl ih =>
    rcases ih (min a x) with he | hm
    · rcases min_choice a x with hax | hax
      · left
        rw [List.foldl_cons, he, hax]
      · right
        rw [List.foldl_cons, he, hax]
        exact List.mem_cons_self x tl
    · right
      rw [List.foldl_cons]
      exact List.mem_cons_of_mem x hm

/-- Helper: the minimum of a nonempty list is one of its members. -/
theorem listMin_mem (xs : List ℚ) (hne : xs ≠ []) : listMin xs ∈ xs := by
  match xs, hne with
  | h :: t, _ =>
    show t.foldl min h ∈ h :: t
    rcases foldl_min_eq_or_mem t h with he | hm
    · rw [he]; exact List.mem_cons_self h t
    · exact List.mem_cons_of_mem h hm

/-- C4 amended: every normalized cluster_risk value lies in [0, 1) (the
denominator carries the additive epsilon 1e-6, so min-max scaling is
approximate and the top value falls strictly below 1), and when all raw
risks are identical every record is assigned exactly 0 - a well-defined
finite value, not NaN, but not the claimed 0.5. -/
theorem c4_amended (xs : List ℚ) (y : ℚ) (hy : y ∈ normalize_cluster_risk xs) :
    (0 ≤ y ∧ y < 1) ∧ (∀ c, (∀ x ∈ xs, x = c) → y = 0) := by
  rcases List.mem_map.mp hy with ⟨r, hr, rfl⟩
  have hmin : listMin xs ≤ r := listMin_le_mem xs r hr
  have hmax : r ≤ listMax xs := le_listMax_mem xs r hr
  have hden : (0 : ℚ) < listMax xs - listMin xs + 1 / 1000000 := by linarith
  refine ⟨⟨?_, ?_⟩, ?_⟩
  · exact div_nonneg (by linarith) (le_of_lt hden)
  · rw [div_lt_one hden]
    linarith
  · intro c hc
    have hne : xs ≠ [] := by
      intro hnil
      rw [hnil] at hr
      cases hr
    have hrc : r = c := hc r hr
    have hminc : listMin xs = c := hc (listMin xs) (listMin_mem xs hne)
    rw [hrc, hminc]
    simp

/-- Witness for c4_amended at the column [1, 2] and its first normalized
value 0. -/
theorem c4_amended_witness : (0 : ℚ) ≤ 0 ∧ (0 : ℚ) < 1 :=
  (c4_amended [1, 2] 0 (by norm_num [normalize_cluster_risk, listMin, listMax])).1

/-- detection.py lines 112-118: the per-component contribution table, in
the declaration order of the dict literal (refund, void, override,
cluster, time); every entry is component * weight * 100. -/
def contributions (w : RiskWeights) (ra va oa cr ta : ℚ) : List (String × ℚ) :=
  [("refund", ra * w.refund_anomaly * 100),
   ("void", va * w.void_anomaly * 100),
   ("override", oa * w.override_anomaly * 100),
   ("cluster", cr * w.cluster_risk * 100),
   ("time", ta * w.time_anomaly * 100)]

/-- One comparison step of pandas idxmax over a row: keep the running best
unless the next column is strictly larger (so the earlier column wins
ties). -/
def pickMax (best q : String × ℚ) : String × ℚ :=
  if best.2 < q.2 then q else best

/-- pandas DataFrame.idxmax(axis=1) over a row given as a (column name,
value) list: the first column attaining the maximum value. -/
def idxmaxP : List (String × ℚ) → String × ℚ
  | [] => ("", 0)
  | p :: rest => rest.foldl pickMax p

/-- detection.py line 119: reason_code = contributions.idxmax(axis=1). -/
def reason_code (w : RiskWeights) (ra va oa cr ta : ℚ) : String :=
  (idxmaxP (contributions w ra va oa cr ta)).1

/-- Helper: the pickMax fold returns its accumulator or a member. -/
theorem foldl_pickMax_eq_or_mem (l : List (String × ℚ)) (a : String × ℚ) :
    l.foldl pickMax a = a ∨ l.foldl pickMax a ∈ l := by
  induction l generalizing a with
  | nil => left; rfl
  | cons x tl ih =>
    rw [List.foldl_cons]
    rcases ih (pickMax a x) with he | hm
    · rw [he]
      unfold pickMax
      split_ifs
      · right; exact List.mem_cons_self x tl
      · left; rfl
    · right; exact List.mem_cons_of_mem x hm

/-- Helper: the pickMax fold result dominates its accumulator. -/
theorem le_foldl_pickMax_init (l : List (String × ℚ)) (a : String × ℚ) :
    a.2 ≤ (l.foldl pickMax a).2 := by
  induction l generalizing a with
  | nil => exact le_refl _
  | cons x tl ih =>
    rw [List.foldl_cons]
    refine le_trans ?_ (ih (pickMax a x))
    unfold pickMax
    split_ifs with h
    · exact le_of_lt h
    · exact le_refl _

/-- Helper: the pickMax fold result dominates every member. -/
theorem le_foldl_pickMax_mem (l : List (String × ℚ)) (a p : String × ℚ)
    (hp : p ∈ l) : p.2 ≤ (l.foldl pickMax a).2 := by
  induction l generalizing a with
  | nil => cases hp
  | cons x tl ih =>
    rw [List.foldl_cons]
    rcases List.mem_cons.mp hp with rfl | hp
    · refine le_trans ?_ (le_foldl_pickMax_init tl (pickMax a p))
      unfold pickMax
      split_ifs with h
      · exact le_refl _
      · exact le_of_not_lt h
    · exact ih (pickMax a x) hp

/-- Helper: the pickMax fold keeps its accumulator when nothing in the
list strictly exceeds it (ties lose to the earlier entry). -/
theorem foldl_pickMax_keep (l : List (String × ℚ)) (a : String × ℚ)
    (h : ∀ q ∈ l, ¬ a.2 < q.2) : l.foldl pickMax a = a := by
  induction l with
  | nil => rfl
  | cons x tl ih =>
    rw [List.foldl_cons]
    have hx : pickMax a x = a := by
      unfold pickMax
      rw [if_neg (h x (List.mem_cons_self x tl))]
    rw [hx]
    exact ih (fun q hq => h q (List.mem_cons_of_mem x hq))

/-- C8: the reported reason_code comes with the largest contribution
weight*component*100 (the selected pair is a member of the contribution
table and its value dominates every entry); when the cluster contribution
strictly dominates the other four, reason_code is "cluster", and on ties
the earlier component in the fixed order refund, void, override, cluster,
time wins (if the refund contribution is at least every other, reason_code
is "refund"). -/
theorem c8_reason_code (ra va oa cr ta : ℚ) :
    (idxmaxP (contributions RISK_WEIGHTS ra va oa cr ta) ∈
      contributions RISK_WEIGHTS ra va oa cr ta) ∧
    (∀ p ∈ contributions RISK_WEIGHTS ra va oa cr ta,
      p.2 ≤ (idxmaxP (contributions RISK_WEIGHTS ra va oa cr ta)).2) ∧
    (cr * (2/10) * 100 > ra * (3/10) * 100 →
     cr * (2/10) * 100 > va * (2/10) * 100 →
     cr * (2/10) * 100 > oa * (2/10) * 100 →
     cr * (2/10) * 100 > ta * (1/10) * 100 →
     reason_code RISK_WEIGHTS ra va oa cr ta = "cluster") ∧
    (ra * (3/10) * 100 ≥ va * (2/10) * 100 →
     ra * (3/10) * 100 ≥ oa * (2/10) * 100 →
     ra * (3/10) * 100 ≥ cr * (2/10) * 100 →
     ra * (3/10) * 100 ≥ ta * (1/10) * 100 →
     reason_code RISK_WEIGHTS ra va oa cr ta = "refund") := by
  have w1 : RISK_WEIGHTS.refund_anomaly = 3/10 := rfl
  have w2 : RISK_WEIGHTS.void_anomaly = 2/10 := rfl
  have w3 : RISK_WEIGHTS.override_anomaly = 2/10 := rfl
  have w4 : RISK_WEIGHTS.cluster_risk = 2/10 := rfl
  have w5 : RISK_WEIGHTS.time_anomaly = 1/10 := rfl
  refine ⟨?_, ?_, ?_, ?_⟩
  · simp only [contributions, idxmaxP]
    rcases foldl_pickMax_eq_or_mem
      [("void", va * RISK_WEIGHTS.void_anomaly * 100),
       ("override", oa * RISK_WEIGHTS.override_anomaly * 100),
       ("cluster", cr * RISK_WEIGHTS.cluster_risk * 100),
       ("time", ta * RISK_WEIGHTS.time_anomaly * 100)]
      ("refund", ra * RISK_WEIGHTS.refund_anomaly * 100) with he | hm
    · rw [he]; exact List.mem_cons_self _ _
    · exact List.mem_cons_of_mem _ hm
  · intro p hp
    simp only [contributions, idxmaxP] at hp ⊢
    rcases List.mem_cons.mp hp with rfl | hp
    · exact le_foldl_pickMax_init _ _
    · exact le_foldl_pickMax_mem _ _ _ hp
  · intro h1 h2 h3 h4
    simp only [reason_code, contributions, idxmaxP, w1, w2, w3, w4, w5,
      List.foldl_cons, List.foldl_nil, pickMax]
    split_ifs <;> first | rfl | (exfalso; linarith)
  · intro h1 h2 h3 h4
    simp only [reason_code, contributions, idxmaxP, w1, w2, w3, w4, w5]
    rw [foldl_pickMax_keep]
    intro q hq
    rcases List.mem_cons.mp hq with rfl | hq
    · exact not_lt.mpr h1
    rcases List.mem_cons.mp hq with rfl | hq
    · exact not_lt.mpr h2
    rcases List.mem_cons.mp hq with rfl | hq
    · exact not_lt.mpr h3
    rcases List.mem_cons.mp hq with rfl | hq
    · exact not_lt.mpr h4
    · cases hq

/-- Witness for c8_reason_code at the components (0, 0, 0, 1, 0), where
the cluster contribution 20 strictly dominates: reason_code is "cluster". -/
theorem c8_reason_code_witness : reason_code RISK_WEIGHTS 0 0 0 1 0 = "cluster" :=
  (c8_reason_code 0 0 0 1 0).2.2.1 (by norm_num) (by norm_num) (by norm_num)
    (by norm_num)

/-- detection.py lines 91-93: an anomaly component is the absolute z-score
clipped to [0, 3] and divided by 3 (np.clip(|z|, 0, 3) / 3). -/
def normalize_anomaly (z : ℚ) : ℚ := max 0 (min |z| 3) / 3

/-- The optional signal columns of one employee feature record as consumed
by CompositeRiskScorer.score_employees (detection.py lines 90-99). An
outer none models an absent column (a pandas KeyError on access); for
cluster_risk the inner none models a NaN cell, which fillna(0) replaces
by 0. The time_anomaly column is the only one accessed through a guarded
membership test, so its absence is tolerated. -/
structure EmployeeFeatures where
  refund_rate_zscore : Option ℚ
  void_rate_zscore : Option ℚ
  override_rate_zscore : Option ℚ
  cluster_risk : Option (Option ℚ)
  time_anomaly : Option ℚ

/-- detection.py lines 90-109 for a single record: the three z-score
columns and the cluster_risk column are accessed unconditionally (a
missing column raises KeyError, modelled as Except.error, in source line
order); NaN cells of cluster_risk are filled with 0; time_anomaly is
taken to be 0 when the column is absent; the result is the weighted
composite risk_score. -/
def score_employees_row (w : RiskWeights) (f : EmployeeFeatures) :
    Except String ℚ :=
  match f.refund_rate_zscore, f.void_rate_zscore, f.override_rate_zscore,
      f.cluster_risk with
  | some rz, some vz, some oz, some crCol =>
      Except.ok (risk_score w (normalize_anomaly rz) (normalize_anomaly vz)
        (normalize_anomaly oz) (crCol.getD 0) (f.time_anomaly.getD 0))
  | none, _, _, _ => Except.error "KeyError: refund_rate_zscore"
  | _, none, _, _ => Except.error "KeyError: void_rate_zscore"
  | _, _, none, _ => Except.error "KeyError: override_rate_zscore"
  | _, _, _, none => Except.error "KeyError: cluster_risk"

/-- True when the scorer produced a risk score rather than an exception. -/
def exceptOk : Except String ℚ → Bool
  | Except.ok _ => true
  | Except.error _ => false

/-- C5 counterexample: a record whose refund_rate_zscore column is absent
makes the employee scorer raise (KeyError), and so does a record whose
cluster_risk column is absent; the claim asserted that every missing
optional signal column is treated as 0 and a risk score is always
produced. -/
theorem c5_counterexample :
    exceptOk (score_employees_row RISK_WEIGHTS
      ⟨none, some 0, some 0, some (some 0), some 0⟩) = false ∧
    score_employees_row RISK_WEIGHTS
      ⟨none, some 0, some 0, some (some 0), some 0⟩ =
      Except.error "KeyError: refund_rate_zscore" ∧
    exceptOk (score_employees_row RISK_WEIGHTS
      ⟨some 0, some 0, some 0, none, some 0⟩) = false ∧
    score_employees_row RISK_WEIGHTS ⟨some 0, some 0, some 0, none, some 0⟩ =
      Except.error "KeyError: cluster_risk" := by
  refine ⟨rfl, rfl, rfl, rfl⟩

/-- C5 amended: only the time_anomaly column may be absent (it then
defaults to 0), and a NaN cell in a present cluster_risk column is filled
with 0; whenever the three z-score columns and the cluster_risk column
are present the scorer always produces a risk score, but the absence of
any of those four columns raises a KeyError instead of defaulting to 0. -/
theorem c5_amended (z1 z2 z3 : ℚ) (c : Option ℚ) (t : Option ℚ) :
    exceptOk (score_employees_row RISK_WEIGHTS
      ⟨some z1, some z2, some z3, some c, t⟩) = true ∧
    score_employees_row RISK_WEIGHTS ⟨some z1, some z2, some z3, some none, none⟩ =
      Except.ok (risk_score RISK_WEIGHTS (normalize_anomaly z1)
        (normalize_anomaly z2) (normalize_anomaly z3) 0 0) := by
  exact ⟨rfl, rfl⟩

/-- One row of the employee feature table as it passes through
FeatureProcessor.add_time_anomaly (features.py lines 71-81); data stands
for every other column, which the stage leaves untouched. -/
structure FeatRow (α : Type) where
  data : α
  time_anomaly : ℚ

/-- features.py lines 71-81: the time anomaly stage is a placeholder that
assigns the constant 0.0 to the time_anomaly column of every record. -/
def add_time_anomaly {α : Type} (rows : List (FeatRow α)) : List (FeatRow α) :=
  rows.map (fun r => { r with time_anomaly := 0 })

/-- C10: the feature processing stage sets time_anomaly to exactly 0 on
every record (leaving the other columns unchanged); consequently the time
contribution 0 * weight * 100 vanishes, the composite risk score with the
default weights is bounded by 90 once the other four components lie in
[0, 1], and reason_code can be "time" only if every contribution is 0
(the pandas idxmax tie-break toward earlier columns in fact makes "time"
impossible once the time contribution is 0 and the others are
nonnegative). -/
theorem c10_time_anomaly {α : Type} (rows : List (FeatRow α)) (ra va oa cr : ℚ)
    (h1 : 0 ≤ ra) (h2 : ra ≤ 1) (h3 : 0 ≤ va) (h4 : va ≤ 1)
    (h5 : 0 ≤ oa) (h6 : oa ≤ 1) (h7 : 0 ≤ cr) (h8 : cr ≤ 1) :
    (∀ r ∈ add_time_anomaly rows, r.time_anomaly = 0) ∧
    ((add_time_anomaly rows).map FeatRow.data = rows.map FeatRow.data) ∧
    ((0 : ℚ) * RISK_WEIGHTS.time_anomaly * 100 = 0) ∧
    risk_score RISK_WEIGHTS ra va oa cr 0 ≤ 90 ∧
    (reason_code RISK_WEIGHTS ra va oa cr 0 = "time" →
      ra = 0 ∧ va = 0 ∧ oa = 0 ∧ cr = 0) := by
  have w1 : RISK_WEIGHTS.refund_anomaly = 3/10 := rfl
  have w2 : RISK_WEIGHTS.void_anomaly = 2/10 := rfl
  have w3 : RISK_WEIGHTS.override_anomaly = 2/10 := rfl
  have w4 : RISK_WEIGHTS.cluster_risk = 2/10 := rfl
  have w5 : RISK_WEIGHTS.time_anomaly = 1/10 := rfl
  refine ⟨?_, ?_, ?_, ?_, ?_⟩
  · intro r hr
    rcases List.mem_map.mp hr with ⟨r0, _, rfl⟩
    rfl
  · unfold add_time_anomaly
    rw [List.map_map]
    rfl
  · rw [w5]; ring
  · simp only [risk_score, w1, w2, w3, w4, w5]
    nlinarith
  · intro ht
    have hmem : idxmaxP (contributions RISK_WEIGHTS ra va oa cr 0) ∈
        contributions RISK_WEIGHTS ra va oa cr 0 := by
      simp only [contributions, idxmaxP]
      rcases foldl_pickMax_eq_or_mem
        [("void", va * RISK_WEIGHTS.void_anomaly * 100),
         ("override", oa * RISK_WEIGHTS.override_anomaly * 100),
         ("cluster", cr * RISK_WEIGHTS.cluster_risk * 100),
         ("time", (0 : ℚ) * RISK_WEIGHTS.time_anomaly * 100)]
        ("refund", ra * RISK_WEIGHTS.refund_anomaly * 100) with he | hm
      · rw [he]; exact List.mem_cons_self _ _
      · exact List.mem_cons_of_mem _ hm
    have hdom : ∀ p ∈ contributions RISK_WEIGHTS ra va oa cr 0,
        p.2 ≤ (idxmaxP (contributions RISK_WEIGHTS ra va oa cr 0)).2 := by
      intro p hp
      simp only [contributions, idxmaxP] at hp ⊢
      rcases List.mem_cons.mp hp with rfl | hp
      · exact le_foldl_pickMax_init _ _
      · exact le_foldl_pickMax_mem _ _ _ hp
    unfold reason_code at ht
    simp only [contributions] at ht hdom
    simp only [contributions, List.mem_cons, List.not_mem_nil, or_false] at hmem
    rcases hmem with hsel | hsel | hsel | hsel | hsel <;> rw [hsel] at ht
    · simp at ht
    · simp at ht
    · simp at ht
    · simp at ht
    · have hr := hdom ("refund", ra * RISK_WEIGHTS.refund_anomaly * 100)
        (by simp)
      have hv := hdom ("void", va * RISK_WEIGHTS.void_anomaly * 100)
        (by simp)
      have ho := hdom ("override", oa * RISK_WEIGHTS.override_anomaly * 100)
        (by simp)
      have hc := hdom ("cluster", cr * RISK_WEIGHTS.cluster_risk * 100)
        (by simp)
      rw [hsel] at hr hv ho hc
      rw [w1] at hr
      rw [w2] at hv
      rw [w3] at ho
      rw [w4] at hc
      rw [w5] at hr hv ho hc
      refine ⟨by linarith, by linarith, by linarith, by linarith⟩

/-- Witness for c10_time_anomaly at a one-row table and the components
(1, 1, 1, 1): the risk score is bounded by 90. -/
theorem c10_time_anomaly_witness : risk_score RISK_WEIGHTS 1 1 1 1 0 ≤ 90 :=
  (c10_time_anomaly ([{ data := (), time_anomaly := 5 }] : List (FeatRow Unit))
    1 1 1 1 (by norm_num) (by norm_num) (by norm_num) (by norm_num)
    (by norm_num) (by norm_num) (by norm_num) (by norm_num)).2.2.2.1

/-- One transaction row as consumed by PatternDetector (detection.py lines
42-74): the columns the detector reads, plus the period (year-month) of
the record, which identifies the record period the spec speaks about but
which the detector itself never reads. payment_cash stands for
payment_method == "cash", refund_flag for refund_flag == 1 and
receipt_provided for receipt_provided == 1. -/
structure Txn where
  employee_id : ℕ
  period : ℕ
  discount_amount : ℚ
  sale_amount : ℚ
  payment_cash : Bool
  refund_flag : Bool
  receipt_provided : Bool
deriving DecidableEq

/-- detection.py lines 48-52, detect_high_discount_cash for one employee:
the number of rows of the whole supplied table whose discount_pct =
discount_amount / sale_amount.clip(1) strictly exceeds the threshold
(default 0.3) and whose payment method is cash. groupby(employee_id).size
restricted to employee e is exactly this count (an employee with no
matching row is absent from the groupby result, which the later fillna(0)
turns into the same 0 this count gives). -/
def high_discount_cash_count (discount_threshold : ℚ) (txns : List Txn)
    (e : ℕ) : ℕ :=
  txns.countP (fun t => decide (t.employee_id = e ∧ t.payment_cash = true ∧
    discount_threshold < t.discount_amount / max t.sale_amount 1))

/-- detection.py lines 54-57, detect_refund_no_receipt for one employee:
the number of rows of the whole supplied table flagged as refunds without
a receipt. -/
def refund_no_receipt_count (txns : List Txn) (e : ℕ) : ℕ :=
  txns.countP (fun t => decide (t.employee_id = e ∧ t.refund_flag = true ∧
    t.receipt_provided = false))

/-- detection.py lines 67-74, get_pattern_counts for one employee: the
pair of pattern counters (with missing values filled with 0) and their
row sum total_patterns, at the default discount threshold 0.3. -/
def get_pattern_counts_row (txns : List Txn) (e : ℕ) : ℕ × ℕ × ℕ :=
  (high_discount_cash_count (3/10) txns e, refund_no_receipt_count txns e,
   high_discount_cash_count (3/10) txns e + refund_no_receipt_count txns e)

/-- The most recent period among an employee's rows (0 when the employee
has none); used only to state what the claim says the detector should
return. -/
def latest_period (txns : List Txn) (e : ℕ) : ℕ :=
  ((txns.filter (fun t => t.employee_id == e)).map Txn.period).foldr max 0

/-- Follows the words of the claim (spec section 4.4) for comparison with
get_pattern_counts_row: the pattern counters of the employee's most
recent period only (sort by (employee id, period), take the last record
per employee - equivalently, restrict the table to the rows of the
employee's maximal period before counting). -/
def latest_period_pattern_counts (txns : List Txn) (e : ℕ) : ℕ × ℕ × ℕ :=
  get_pattern_counts_row (txns.filter (fun t => t.period == latest_period txns e)) e

/-- A concrete transaction table: one employee with one matching
high-discount cash row in each of two periods. -/
def twoPeriodTxns : List Txn :=
  [{ employee_id := 1, period := 1, discount_amount := 1, sale_amount := 1,
     payment_cash := true, refund_flag := false, receipt_provided := true },
   { employee_id := 1, period := 2, discount_amount := 1, sale_amount := 1,
     payment_cash := true, refund_flag := false, receipt_provided := true }]

/-- C9 counterexample: on twoPeriodTxns the detector counts 2 matching
rows for employee 1 (it aggregates over the whole supplied table), while
the claimed most-recent-period contract yields 1. -/
theorem c9_counterexample :
    get_pattern_counts_row twoPeriodTxns 1 = (2, 0, 2) ∧
    latest_period_pattern_counts twoPeriodTxns 1 = (1, 0, 1) ∧
    (2, 0, 2) ≠ ((1 : ℕ), (0 : ℕ), (1 : ℕ)) := by
  have hfl : twoPeriodTxns.filter
      (fun t => t.period == latest_period twoPeriodTxns 1) =
      [{ employee_id := 1, period := 2, discount_amount := 1, sale_amount := 1,
         payment_cash := true, refund_flag := false, receipt_provided := true }] := by
    decide
  refine ⟨?_, ?_, by decide⟩
  · norm_num [get_pattern_counts_row, high_discount_cash_count,
      refund_no_receipt_count, twoPeriodTxns, List.countP_cons, List.countP_nil]
  · rw [latest_period_pattern_counts, hfl]
    norm_num [get_pattern_counts_row, high_discount_cash_count,
      refund_no_receipt_count, List.countP_cons, List.countP_nil]

/-- C9 amended: the pattern detector aggregates each counter over every
row of the supplied table, ignoring periods entirely (the counts are
invariant under arbitrary rewrites of the period column), rather than
selecting each employee's most recent period; absent counters are 0 and
total_patterns is the row sum of the two counters. -/
theorem c9_amended (txns : List Txn) (e : ℕ) (g : Txn → ℕ) :
    high_discount_cash_count (3/10)
      (txns.map (fun t => { t with period := g t })) e =
      high_discount_cash_count (3/10) txns e ∧
    refund_no_receipt_count (txns.map (fun t => { t with period := g t })) e =
      refund_no_receipt_count txns e ∧
    (get_pattern_counts_row txns e).2.2 =
      (get_pattern_counts_row txns e).1 + (get_pattern_counts_row txns e).2.1 := by
  refine ⟨?_, ?_, rfl⟩
  · unfold high_discount_cash_count
    rw [List.countP_map]
    rfl
  · unfold refund_no_receipt_count
    rw [List.countP_map]
    rfl

/-- Insertion of a value into an ascending sorted list of scores. -/
def insertSorted (x : ℚ) : List ℚ → List ℚ
  | [] => [x]
  | y :: ys => if x ≤ y then x :: y :: ys else y :: insertSorted x ys

/-- Ascending insertion sort of score values. -/
def sortAsc (xs : List ℚ) : List ℚ := xs.foldr insertSorted []

/-- Removal of adjacent duplicates, giving the distinct values of a
sorted list. -/
def dedupAdj : List ℚ → List ℚ
  | [] => []
  | [x] => [x]
  | x :: y :: ys => if x = y then dedupAdj (y :: ys) else x :: dedupAdj (y :: ys)

/-- Confusion-matrix counts (tp, fp, fn, tn) at a threshold, predicting
positive when threshold ≤ score: validation.py line 13 / line 30,
y_pred = (y_scores >= thresh), followed by confusion_matrix(...).ravel(). -/
def confusion_counts (y_true : List Bool) (y_scores : List ℚ) (t : ℚ) :
    ℕ × ℕ × ℕ × ℕ :=
  ((y_true.zip y_scores).countP (fun p => p.1 && decide (t ≤ p.2)),
   (y_true.zip y_scores).countP (fun p => !p.1 && decide (t ≤ p.2)),
   (y_true.zip y_scores).countP (fun p => p.1 && decide (p.2 < t)),
   (y_true.zip y_scores).countP (fun p => !p.1 && decide (p.2 < t)))

/-- validation.py line 32 (and line 16): recall_i = tp / (tp + fn) when
tp + fn > 0, else 0. -/
def recall_at (y_true : List Bool) (y_scores : List ℚ) (t : ℚ) : ℚ :=
  let c := confusion_counts y_true y_scores t
  if c.1 + c.2.2.1 > 0 then (c.1 : ℚ) / ((c.1 : ℚ) + (c.2.2.1 : ℚ)) else 0

/-- validation.py line 33 (and line 17): fpr_i = fp / (fp + tn) when
fp + tn > 0, else 0. -/
def fpr_at (y_true : List Bool) (y_scores : List ℚ) (t : ℚ) : ℚ :=
  let c := confusion_counts y_true y_scores t
  if c.2.1 + c.2.2.2 > 0 then (c.2.1 : ℚ) / ((c.2.1 : ℚ) + (c.2.2.2 : ℚ)) else 0

/-- The thresholds array of sklearn precision_recall_curve as consumed by
validation.py line 22: the distinct score values in increasing order,
truncated below at the smallest score for which recall is still maximal
(sklearn drops the thresholds below the minimum positive-labeled score,
where recall stays 1; for no positive labels the edge case is
irrelevant to the properties proved here and is modelled as the empty
list). -/
def pr_thresholds (y_true : List Bool) (y_scores : List ℚ) : List ℚ :=
  match ((y_true.zip y_scores).filter (fun p => p.1)).map (fun p => p.2) with
  | [] => []
  | h :: rest =>
    (dedupAdj (sortAsc y_scores)).filter (fun s => decide (rest.foldl min h ≤ s))

/-- validation.py lines 20-41, find_best_threshold: iterate over the
precision_recall_curve thresholds in order, skip every threshold greater
than 1 (the "avoid extreme thresholds" guard of line 28), and return the
first remaining threshold with recall_i >= target_recall and
fpr_i <= target_fpr; None when the loop finds none. -/
def find_best_threshold (target_recall target_fpr : ℚ) (y_true : List Bool)
    (y_scores : List ℚ) : Option ℚ :=
  (pr_thresholds y_true y_scores).find? (fun t =>
    if 1 < t then false
    else decide (target_recall ≤ recall_at y_true y_scores t) &&
         decide (fpr_at y_true y_scores t ≤ target_fpr))

/-- C1: at the input of the claim (scores [10, 40, 60, 90], labels
[0, 0, 1, 1], target_recall 1, target_fpr 1/2) the scanned candidate
thresholds are [60, 90], and the threshold 60 satisfies both targets
(recall 1, fpr 0); yet find_best_threshold returns None (failure),
because its guard skips every threshold greater than 1 while the risk
scores live on the 0-100 scale. -/
theorem c1_threshold_bug :
    find_best_threshold 1 (1/2) [false, false, true, true] [10, 40, 60, 90] =
      none ∧
    pr_thresholds [false, false, true, true] [10, 40, 60, 90] = [60, 90] ∧
    recall_at [false, false, true, true] [10, 40, 60, 90] 60 = 1 ∧
    fpr_at [false, false, true, true] [10, 40, 60, 90] 60 = 0 := by
  refine ⟨?_, ?_, ?_, ?_⟩
  · norm_num [find_best_threshold, pr_thresholds, sortAsc, insertSorted,
      dedupAdj, List.filter, List.find?]
  · norm_num [pr_thresholds, sortAsc, insertSorted, dedupAdj, List.filter]
  · norm_num [recall_at, confusion_counts, List.countP_cons, List.countP_nil,
      List.zip]
  · norm_num [fpr_at, confusion_counts, List.countP_cons, List.countP_nil,
      List.zip]
